import Mathlib

/-!
# images-store: the HTTP handlers of `main.go`

A shallow embedding of the two request handlers `httpRespond` and `getImage`
and of the route table registered in `main`.

Every call a handler makes on a collaborator (the response writer, the stow
container, the multipart parser, the template engine) is recorded, in program
order, as an `Event` of the handler's trace.  What a collaborator answers is
read from a `World` value, so a theorem quantified over `World` holds for every
behaviour of the store, the parser, the clock and the environment.

A run-time panic (a method call on a nil interface, a nil pointer dereference)
ends the handler: no later statement runs, only the calls deferred so far. The
result records the panic in `panicked`.
-/

namespace ImagesStore

/-! ## Strings -/

/-- Go `strings.HasPrefix(s, p)`. -/
def HasPrefix (s p : String) : Bool := p.data.isPrefixOf s.data

/-- Go `strings.HasSuffix(s, p)`. -/
def HasSuffix (s p : String) : Bool := p.data.isSuffixOf s.data

/-- Substring search on character lists: does `sub` occur in `s`. -/
def containsChars : List Char → List Char → Bool
  | [], sub => sub.isEmpty
  | c :: cs, sub => sub.isPrefixOf (c :: cs) || containsChars cs sub

/-- Go `strings.Contains(s, substr)`. -/
def Contains (s substr : String) : Bool := containsChars s.data substr.data

/-- Go `strconv.FormatInt(i, 10)`: the decimal digits, after a minus sign for a
negative number. -/
def FormatInt (i : Int) : String :=
  match i with
  | Int.ofNat n => Nat.repr n
  | Int.negSucc n => "-" ++ Nat.repr (n + 1)

/-! ## Requests -/

/-- Go `map[string][]string`, the shape of `http.Header` and `url.Values`. -/
abbrev Values := List (String × List String)

/-- Go `Header.Get(key)`: the first value stored under `key`, or the empty
string when there is none. -/
def HeaderGet (h : Values) (key : String) : String :=
  match h.lookup key with
  | some (v :: _) => v
  | _ => ""

/-- The fields of `*http.Request` the handlers read; `Query` is the result of
`r.URL.Query()`. -/
structure Request where
  Method : String
  Header : Values
  Query : Values
  deriving DecidableEq, Repr

/-- The struct `reqBody` of `main.go`. -/
structure reqBody where
  Filetype : String
  deriving DecidableEq, Repr

/-! ## Collaborators -/

/-- A non-nil `multipart.File`. -/
structure File where
  id : Nat
  deriving DecidableEq, Repr

/-- A non-nil `*multipart.FileHeader`. -/
structure FileHeader where
  Size : Int
  deriving DecidableEq, Repr

/-- A non-nil `stow.Item`. -/
structure Item where
  id : Nat
  deriving DecidableEq, Repr

/-- A non-nil `io.ReadCloser`. -/
structure Reader where
  id : Nat
  deriving DecidableEq, Repr

/-- The constant `stow.CursorStart` of package `github.com/graymeta/stow`. -/
def CursorStart : String := ""

/-- The constant `stow.NoPrefix` of package `github.com/graymeta/stow`. -/
def NoPrefix : String := ""

/-- The three results of `r.FormFile(name)`; `none` stands for Go `nil`. -/
structure FormFileResult where
  file : Option File
  fileHeader : Option FileHeader
  err : Option String
  deriving DecidableEq, Repr

/-- The three results of `container.Items(...)`; `none` stands for a nil error. -/
structure ItemsResult where
  items : List Item
  nextCursor : String
  err : Option String
  deriving DecidableEq, Repr

/-- The two results of `item.Open()`; `none` stands for Go `nil`. -/
structure OpenResult where
  reader : Option Reader
  err : Option String
  deriving DecidableEq, Repr

/-- What the environment and the collaborators answer during one request.
An `Option String` error is `none` for a nil error and `some msg` for an error
whose `Error()` is `msg`. -/
structure World where
  /-- The value of `os.Getenv("AUTH_KEY")`: empty when the variable is unset. -/
  AUTH_KEY : String
  /-- The value of `time.Now().Unix()`. -/
  now : Int
  /-- The error of `r.ParseMultipartForm(32 << 20)`. -/
  parseMultipartForm : Option String
  /-- The outcome of `decoder.Decode(&data, r.PostForm)`: an error, or the decoded
  `data`. -/
  decode : Except String reqBody
  /-- The results of `r.FormFile(name)`. -/
  formFile : String → FormFileResult
  /-- The error of `container.Put(key, file, size, nil)`. -/
  put : String → File → Int → Option String
  /-- The results of `container.Items(pfx, cursor, count)`. -/
  items : String → String → Nat → ItemsResult
  /-- The error of `template.New(name).ParseFiles(name)`. -/
  parseFiles : String → Option String
  /-- The error of `tmpl.Execute(w, {items, nextCursor})`. -/
  execute : List Item → String → Option String
  /-- The results of `container.Item(id)`. -/
  item : String → Except String Item
  /-- The results of `item.Open()`. -/
  openItem : Item → OpenResult

/-- One call made by a handler, with its arguments. -/
inductive Event where
  /-- The call `http.Error(w, msg, code)`. -/
  | httpError (msg : String) (code : Nat)
  /-- The call `w.Write([]byte(body))`. -/
  | write (body : String)
  /-- The call `r.ParseMultipartForm(maxMemory)`. -/
  | parseMultipartForm (maxMemory : Nat)
  /-- The call `decoder.Decode(&data, r.PostForm)`. -/
  | decode
  /-- The call `r.FormFile(name)`. -/
  | formFile (name : String)
  /-- The deferred call `file.Close()`. -/
  | close (file : File)
  /-- The call `container.Put(key, file, size, nil)`. -/
  | put (key : String) (file : File) (size : Int)
  /-- The call `container.Items(pfx, cursor, count)`. -/
  | items (pfx : String) (cursor : String) (count : Nat)
  /-- The call `template.New(name).ParseFiles(name)`. -/
  | parseFiles (name : String)
  /-- The call `tmpl.Execute(w, {items, nextCursor})`. -/
  | execute (items : List Item) (nextCursor : String)
  /-- The call `container.Item(id)`. -/
  | item (id : String)
  /-- The call `item.Open()`. -/
  | openItem (item : Item)
  /-- The call `io.Copy(w, reader)`; `none` is a nil reader. -/
  | copy (reader : Option Reader)
  deriving DecidableEq, Repr

/-- What a handler did: its calls in program order, and whether it ended in a
run-time panic. -/
structure Result where
  trace : List Event
  panicked : Bool
  deriving DecidableEq, Repr

/-! ## The handlers -/

/-- The handler `httpRespond` of `main.go` (lines 60-128). -/
def httpRespond (w : World) (r : Request) : Result :=
  if r.Method = "POST" then
    -- authorize upload
    let ok := HeaderGet r.Header "Authorization" == w.AUTH_KEY
    if !ok then
      ⟨[.httpError "unauthorized" 401], false⟩
    else
      let contentType := HeaderGet r.Header "Content-Type"
      if !Contains contentType "multipart/form-data" then
        ⟨[.httpError "Content-Type not accepted" 400], false⟩
      else
        match w.parseMultipartForm with
        | some err => ⟨[.parseMultipartForm (32 <<< 20), .httpError err 500], false⟩
        | none =>
          match w.decode with
          | .error err =>
            ⟨[.parseMultipartForm (32 <<< 20), .decode, .httpError err 500], false⟩
          | .ok data =>
            let ff := w.formFile "image"
            match ff.file with
            | none =>
              -- `defer file.Close()` on the nil interface `file`: the method value
              -- is evaluated when the `defer` statement runs, which panics here,
              -- before the test `file == nil` of the next line
              ⟨[.parseMultipartForm (32 <<< 20), .decode, .formFile "image"], true⟩
            | some file =>
              match ff.err with
              | some err =>
                ⟨[.parseMultipartForm (32 <<< 20), .decode, .formFile "image",
                  .httpError err 500, .close file], false⟩
              | none =>
                match ff.fileHeader with
                | none =>
                  -- `fileHeader.Size` on a nil pointer; the deferred `Close` runs
                  ⟨[.parseMultipartForm (32 <<< 20), .decode, .formFile "image",
                    .close file], true⟩
                | some fileHeader =>
                  let key := FormatInt w.now ++ "." ++ data.Filetype
                  match w.put key file fileHeader.Size with
                  | some err =>
                    ⟨[.parseMultipartForm (32 <<< 20), .decode, .formFile "image",
                      .put key file fileHeader.Size, .httpError err 500, .close file], false⟩
                  | none =>
                    ⟨[.parseMultipartForm (32 <<< 20), .decode, .formFile "image",
                      .put key file fileHeader.Size, .write "OK", .close file], false⟩
  else if r.Method = "GET" then
    let cursor :=
      match r.Query.lookup "cursor" with
      | none => CursorStart
      | some [] => CursorStart
      | some (c :: _) => c
    -- the error of `Items` is overwritten by the next assignment to `err`
    let res := w.items NoPrefix cursor 100
    match w.parseFiles "index.tmpl" with
    | some err =>
      ⟨[.items NoPrefix cursor 100, .parseFiles "index.tmpl", .httpError err 500], false⟩
    | none =>
      match w.execute res.items res.nextCursor with
      | some err =>
        ⟨[.items NoPrefix cursor 100, .parseFiles "index.tmpl",
          .execute res.items res.nextCursor, .httpError err 500], false⟩
      | none =>
        ⟨[.items NoPrefix cursor 100, .parseFiles "index.tmpl",
          .execute res.items res.nextCursor], false⟩
  else
    ⟨[], false⟩

/-- The handler `getImage` of `main.go` (lines 130-153). -/
def getImage (w : World) (r : Request) : Result :=
  if r.Method = "GET" then
    match r.Query.lookup "image" with
    | none => ⟨[.httpError "missing image id" 400], false⟩
    | some [] => ⟨[.httpError "missing image id" 400], false⟩
    | some (imageID :: _) =>
      match w.item imageID with
      | .error err => ⟨[.item imageID, .httpError err 500], false⟩
      | .ok item =>
        let o := w.openItem item
        match o.err with
        | some err =>
          -- no `return` after the error reply: `io.Copy` still runs
          ⟨[.item imageID, .openItem item, .httpError err 500, .copy o.reader],
            o.reader.isNone⟩
        | none =>
          ⟨[.item imageID, .openItem item, .copy o.reader], o.reader.isNone⟩
  else
    ⟨[.httpError "method not supported" 405], false⟩

/-! ## Routing -/

/-- The handlers registered in `main`. -/
inductive Handler where
  | httpRespond
  | getImage
  deriving DecidableEq, Repr

/-- One entry of the mux: `muxEntry` of `net/http`. -/
structure muxEntry where
  h : Handler
  pattern : String
  deriving DecidableEq, Repr

/-- The `net/http` function `appendSorted`: insert before the first entry
whose pattern is shorter, so that `es` stays sorted from longest to shortest. -/
def appendSorted : List muxEntry → muxEntry → List muxEntry
  | [], e => [e]
  | x :: xs, e =>
    if x.pattern.length < e.pattern.length then e :: x :: xs
    else x :: appendSorted xs e

/-- The `net/http` type `ServeMux`: `m` holds every registered pattern, `es` the
patterns that end in a slash. -/
structure ServeMux where
  m : List muxEntry
  es : List muxEntry
  deriving DecidableEq, Repr

/-- The method `ServeMux.Handle` behind `http.HandleFunc(pattern, handler)`, for
a pattern that is not registered yet (`Handle` panics on a second registration of
one pattern; `main` registers two different patterns). -/
def ServeMux.HandleFunc (mux : ServeMux) (pattern : String) (h : Handler) : ServeMux :=
  let e : muxEntry := ⟨h, pattern⟩
  { m := e :: mux.m
    es := if pattern.data.getLast? = some '/' then appendSorted mux.es e else mux.es }

/-- The method `ServeMux.match` of `net/http`: an exact match first, then the
longest registered pattern ending in a slash that is a prefix of the path. -/
def ServeMux.matchPath (mux : ServeMux) (path : String) : Option Handler :=
  match mux.m.find? (fun e => e.pattern == path) with
  | some e => some e.h
  | none =>
    match mux.es.find? (fun e => HasPrefix path e.pattern) with
    | some e => some e.h
    | none => none

/-- The two registrations of `main` (lines 49-50) on the default mux. -/
def mainMux : ServeMux :=
  ((ServeMux.mk [] []).HandleFunc "/" Handler.httpRespond).HandleFunc "/image" Handler.getImage

/-- Where the mux of `main` sends a request path, by `ServeMux.match`: `none` is
the 404 reply of `http.NotFoundHandler`. The server applies it to a path in
canonical form; a request whose path is not canonical (`//image`, `/a/../b`) is
first redirected to the canonical path. -/
def dispatch (path : String) : Option Handler := mainMux.matchPath path

/-! ## Observations on a trace -/

/-- The `Put` calls of a trace. -/
def putCalls : List Event → List (String × File × Int)
  | [] => []
  | .put key file size :: es => (key, file, size) :: putCalls es
  | _ :: es => putCalls es

/-- The `Items` calls of a trace. -/
def itemsCalls : List Event → List (String × String × Nat)
  | [] => []
  | .items pfx cursor count :: es => (pfx, cursor, count) :: itemsCalls es
  | _ :: es => itemsCalls es

/-- Is the event a call on the store (`Put`, `Item`, `Items`). -/
def Event.isStoreCall : Event → Bool
  | .put _ _ _ => true
  | .items _ _ _ => true
  | .item _ => true
  | _ => false

/-- The spec's key pattern `^[0-9]+\.[^/]*$`: one or more decimal digits, a dot,
then any characters other than a slash up to the end of the string. -/
def matchesKeyPattern (key : String) : Bool :=
  let digits := key.data.takeWhile Char.isDigit
  let rest := key.data.dropWhile Char.isDigit
  !digits.isEmpty &&
    match rest with
    | '.' :: tl => tl.all (fun c => c != '/')
    | _ => false

/-! ## Sample inputs -/

/-- A world where every collaborator succeeds: the key is `secret`, the clock
reads 1700000000, the form holds `filetype=png` and a 4-byte file `image`. -/
def okWorld : World where
  AUTH_KEY := "secret"
  now := 1700000000
  parseMultipartForm := none
  decode := .ok ⟨"png"⟩
  formFile := fun _ => ⟨some ⟨1⟩, some ⟨4⟩, none⟩
  put := fun _ _ _ => none
  items := fun _ _ _ => ⟨[⟨1⟩, ⟨2⟩], "next", none⟩
  parseFiles := fun _ => none
  execute := fun _ _ => none
  item := fun _ => .ok ⟨7⟩
  openItem := fun _ => ⟨some ⟨9⟩, none⟩

/-- An authorized multipart upload for `okWorld`. -/
def uploadRequest : Request where
  Method := "POST"
  Header := [("Authorization", ["secret"]),
             ("Content-Type", ["multipart/form-data; boundary=X"])]
  Query := []


/-- A request for `okWorld` with the wrong key and a valid multipart body. -/
def wrongKeyRequest : Request where
  Method := "POST"
  Header := [("Authorization", ["wrong"]),
             ("Content-Type", ["multipart/form-data; boundary=X"])]
  Query := []

/-- A multipart upload that carries no `Authorization` header. -/
def noAuthRequest : Request where
  Method := "POST"
  Header := [("Content-Type", ["multipart/form-data; boundary=X"])]
  Query := []

/-- The world `okWorld` with `AUTH_KEY` unset. -/
def unsetKeyWorld : World := { okWorld with AUTH_KEY := "" }

/-- The world `okWorld` with a form field `filetype=a/b`. -/
def slashWorld : World := { okWorld with decode := .ok ⟨"a/b"⟩ }

/-- The world `okWorld` with the clock one second before the Unix epoch. -/
def earlyWorld : World := { okWorld with now := -1 }

/-- The world `okWorld` with a form that holds no file part `image`: `FormFile`
answers `nil, nil, http.ErrMissingFile`. -/
def missingFileWorld : World :=
  { okWorld with formFile := fun _ => ⟨none, none, some "http: no such file"⟩ }

/-- The world `okWorld` with a store whose `Items` call fails. -/
def itemsFailWorld : World :=
  { okWorld with items := fun _ _ _ => ⟨[], "", some "boom"⟩ }

/-- The world `okWorld` with items whose `Open` fails with a nil reader. -/
def openFailWorld : World :=
  { okWorld with openItem := fun _ => ⟨none, some "open failed"⟩ }

/-- A request `GET /` without a query. -/
def listRequest : Request := ⟨"GET", [], []⟩

/-- A request `GET /?cursor=` followed by the start sentinel. -/
def listStartRequest : Request := ⟨"GET", [], [("cursor", [CursorStart])]⟩

/-- A request `GET /image?image=` with an empty value. -/
def emptyImageRequest : Request := ⟨"GET", [], [("image", [""])]⟩

/-- A request `GET /image?image=k`. -/
def imageRequest : Request := ⟨"GET", [], [("image", ["k"])]⟩

/-- A request `GET /image` without a query. -/
def noImageRequest : Request := ⟨"GET", [], []⟩

/-- A request with method `PUT`. -/
def putRequest : Request := ⟨"PUT", [], []⟩

/-! ## Lemmas on decimal rendering and on the key pattern -/

theorem digitChar_isDigit (d : Nat) (h : d < 10) : (Nat.digitChar d).isDigit = true := by
  interval_cases d <;> decide

theorem toDigitsCore_all_isDigit (fuel : Nat) :
    ∀ (n : Nat) (acc : List Char), (∀ c ∈ acc, c.isDigit = true) →
      ∀ c ∈ Nat.toDigitsCore 10 fuel n acc, c.isDigit = true := by
  induction fuel with
  | zero => intro n acc hacc c hc; exact hacc c (by simpa [Nat.toDigitsCore] using hc)
  | succ fuel ih =>
    intro n acc hacc c hc
    have hd : (Nat.digitChar (n % 10)).isDigit = true :=
      digitChar_isDigit _ (Nat.mod_lt _ (by decide))
    have hacc2 : ∀ c ∈ Nat.digitChar (n % 10) :: acc, c.isDigit = true := by
      intro c hc
      rcases List.mem_cons.mp hc with h | h
      · rw [h]; exact hd
      · exact hacc c h
    unfold Nat.toDigitsCore at hc
    by_cases h0 : n / 10 = 0
    · simp only [h0, if_true] at hc
      exact hacc2 c hc
    · simp only [h0, if_false] at hc
      exact ih _ _ hacc2 c hc

theorem toDigitsCore_ne_nil (fuel : Nat) :
    ∀ (n : Nat) (acc : List Char), (fuel ≠ 0 ∨ acc ≠ []) →
      Nat.toDigitsCore 10 fuel n acc ≠ [] := by
  induction fuel with
  | zero =>
    intro n acc h
    rcases h with h | h
    · exact absurd rfl h
    · simpa [Nat.toDigitsCore] using h
  | succ fuel ih =>
    intro n acc _
    unfold Nat.toDigitsCore
    by_cases h0 : n / 10 = 0
    · simp [h0]
    · simp only [h0, if_false]
      exact ih _ _ (Or.inr (by simp))

theorem repr_all_isDigit (n : Nat) : ∀ c ∈ (Nat.repr n).data, c.isDigit = true := by
  intro c hc
  exact toDigitsCore_all_isDigit (n + 1) n [] (by simp) c
    (by simpa [Nat.repr, Nat.toDigits, List.asString] using hc)

theorem repr_ne_nil (n : Nat) : (Nat.repr n).data ≠ [] := by
  have h := toDigitsCore_ne_nil (n + 1) n [] (Or.inl (by simp))
  simpa [Nat.repr, Nat.toDigits, List.asString] using h

theorem takeWhile_digits_stop (ds tl : List Char) (c : Char)
    (hds : ∀ d ∈ ds, d.isDigit = true) (hc : c.isDigit = false) :
    (ds ++ c :: tl).takeWhile Char.isDigit = ds := by
  induction ds with
  | nil => simp [List.takeWhile, hc]
  | cons d ds ih =>
    have hd : d.isDigit = true := hds d (by simp)
    have h := ih (fun x hx => hds x (by simp [hx]))
    simp only [List.cons_append, List.takeWhile_cons, hd, if_true, h]

theorem dropWhile_digits_stop (ds tl : List Char) (c : Char)
    (hds : ∀ d ∈ ds, d.isDigit = true) (hc : c.isDigit = false) :
    (ds ++ c :: tl).dropWhile Char.isDigit = c :: tl := by
  induction ds with
  | nil => simp [List.dropWhile, hc]
  | cons d ds ih =>
    have hd : d.isDigit = true := hds d (by simp)
    have h := ih (fun x hx => hds x (by simp [hx]))
    simp only [List.cons_append, List.dropWhile_cons, hd, if_true, h]

/-- The key pattern on a key minted from a non-negative clock value. -/
theorem matchesKeyPattern_ofNat (n : Nat) (ft : String) :
    matchesKeyPattern (FormatInt (Int.ofNat n) ++ "." ++ ft) = true ↔ '/' ∉ ft.data := by
  have hdot : Char.isDigit '.' = false := by decide
  have hdata : (FormatInt (Int.ofNat n) ++ "." ++ ft).data
      = (Nat.repr n).data ++ '.' :: ft.data := by
    simp [FormatInt, String.data_append]
  unfold matchesKeyPattern
  simp only [hdata, takeWhile_digits_stop _ _ _ (repr_all_isDigit n) hdot,
    dropWhile_digits_stop _ _ _ (repr_all_isDigit n) hdot]
  have hne := repr_ne_nil n
  simp [List.isEmpty_iff, hne]
  constructor
  · intro h hmem; exact h _ hmem rfl
  · intro h c hc hceq; exact h (hceq ▸ hc)

/-- The key pattern on a key minted from a negative clock value. -/
theorem matchesKeyPattern_negSucc (n : Nat) (ft : String) :
    matchesKeyPattern (FormatInt (Int.negSucc n) ++ "." ++ ft) = false := by
  have hdata : (FormatInt (Int.negSucc n) ++ "." ++ ft).data
      = '-' :: ((Nat.repr (n + 1)).data ++ '.' :: ft.data) := by
    simp [FormatInt, String.data_append]
  have hminus : Char.isDigit '-' = false := by decide
  unfold matchesKeyPattern
  simp [hdata, List.takeWhile, hminus]

theorem mainMux_eq :
    mainMux = ⟨[⟨Handler.getImage, "/image"⟩, ⟨Handler.httpRespond, "/"⟩],
      [⟨Handler.httpRespond, "/"⟩]⟩ := by
  decide

/-- The `Items` call of the list branch: one call, with the cursor chosen at
lines 105-111. -/
theorem httpRespond_get_itemsCalls (w : World) (r : Request) (hGet : r.Method = "GET") :
    itemsCalls (httpRespond w r).trace =
      [(NoPrefix,
        (match r.Query.lookup "cursor" with
          | none => CursorStart
          | some [] => CursorStart
          | some (c :: _) => c),
        100)] := by
  have hne : r.Method ≠ "POST" := by rw [hGet]; decide
  unfold httpRespond
  rw [if_neg hne, if_pos hGet]
  cases w.parseFiles "index.tmpl" with
  | some err => simp [itemsCalls]
  | none =>
    dsimp only
    split <;> simp [itemsCalls]

/-- The matcher accepts exactly the strings of the regular language: a non-empty
run of digits, a dot, and a tail without a slash. -/
theorem matchesKeyPattern_iff (key : String) :
    matchesKeyPattern key = true ↔
      ∃ ds tl, key.data = ds ++ '.' :: tl ∧ ds ≠ [] ∧ (∀ c ∈ ds, c.isDigit = true) ∧
        '/' ∉ tl := by
  have hdot : Char.isDigit '.' = false := by decide
  constructor
  · intro h
    unfold matchesKeyPattern at h
    simp only [Bool.and_eq_true, Bool.not_eq_true', List.isEmpty_eq_false] at h
    obtain ⟨hne, hrest⟩ := h
    have hsplit := List.takeWhile_append_dropWhile Char.isDigit key.data
    cases hd : key.data.dropWhile Char.isDigit with
    | nil => simp [hd] at hrest
    | cons c tl =>
      rw [hd] at hrest hsplit
      by_cases hc : c = '.'
      · subst hc
        refine ⟨_, tl, hsplit.symm, hne, fun c hc => (List.mem_takeWhile_imp hc), ?_⟩
        intro hmem
        simp only [List.all_eq_true] at hrest
        simpa using hrest _ hmem
      · exfalso
        revert hrest
        split
        · rename_i heq
          injection heq with h1 h2
          exact absurd h1 hc
        · simp
  · rintro ⟨ds, tl, hkey, hne, hds, htl⟩
    unfold matchesKeyPattern
    rw [hkey, takeWhile_digits_stop _ _ _ hds hdot, dropWhile_digits_stop _ _ _ hds hdot]
    simp only [Bool.and_eq_true, Bool.not_eq_true', List.isEmpty_eq_false, List.all_eq_true]
    refine ⟨hne, fun c hc => ?_⟩
    have : c ≠ '/' := fun h => htl (h ▸ hc)
    simpa using this

/-- The key pattern on a minted key, for every clock value. -/
theorem matchesKeyPattern_key (i : Int) (ft : String) :
    matchesKeyPattern (FormatInt i ++ "." ++ ft) = true ↔ 0 ≤ i ∧ '/' ∉ ft.data := by
  cases i with
  | ofNat n =>
    rw [matchesKeyPattern_ofNat]
    simp [Int.ofNat_nonneg]
  | negSucc n =>
    rw [matchesKeyPattern_negSucc]
    have h : ¬ (0 : Int) ≤ Int.negSucc n := not_le.mpr (Int.negSucc_lt_zero n)
    simp [h]

theorem hasSuffix_append (a b : String) : HasSuffix (a ++ b) b = true := by
  unfold HasSuffix
  rw [List.isSuffixOf_iff_suffix, String.data_append]
  exact List.suffix_append _ _

/-- A trace that holds the reply `OK` is the trace of the complete upload path. -/
theorem httpRespond_ok_inv (w : World) (r : Request)
    (hOk : Event.write "OK" ∈ (httpRespond w r).trace) :
    ∃ (data : reqBody) (file : File) (fileHeader : FileHeader), w.decode = Except.ok data ∧
      httpRespond w r =
        ⟨[Event.parseMultipartForm (32 <<< 20), Event.decode, Event.formFile "image",
          Event.put (FormatInt w.now ++ "." ++ data.Filetype) file fileHeader.Size,
          Event.write "OK", Event.close file], false⟩ := by
  by_cases hm : r.Method = "POST"
  · by_cases ha : HeaderGet r.Header "Authorization" = w.AUTH_KEY
    · by_cases hc : Contains (HeaderGet r.Header "Content-Type") "multipart/form-data" = true
      · cases hp : w.parseMultipartForm with
        | some err => simp [httpRespond, hm, ha, hc, hp] at hOk
        | none =>
          cases hd : w.decode with
          | error err => simp [httpRespond, hm, ha, hc, hp, hd] at hOk
          | ok data =>
            cases hf : (w.formFile "image").file with
            | none => simp [httpRespond, hm, ha, hc, hp, hd, hf] at hOk
            | some file =>
              cases he : (w.formFile "image").err with
              | some err => simp [httpRespond, hm, ha, hc, hp, hd, hf, he] at hOk
              | none =>
                cases hh : (w.formFile "image").fileHeader with
                | none => simp [httpRespond, hm, ha, hc, hp, hd, hf, he, hh] at hOk
                | some fileHeader =>
                  cases hput : w.put (FormatInt w.now ++ "." ++ data.Filetype) file
                      fileHeader.Size with
                  | some err =>
                    simp [httpRespond, hm, ha, hc, hp, hd, hf, he, hh, hput] at hOk
                  | none =>
                    refine ⟨data, file, fileHeader, rfl, ?_⟩
                    simp [httpRespond, hm, ha, hc, hp, hd, hf, he, hh, hput]
      · simp [httpRespond, hm, ha, hc] at hOk
    · simp [httpRespond, hm, ha] at hOk
  · by_cases hg : r.Method = "GET"
    · cases hpf : w.parseFiles "index.tmpl" with
      | some err => simp [httpRespond, hm, hg, hpf] at hOk
      | none =>
        unfold httpRespond at hOk
        rw [if_neg hm, if_pos hg] at hOk
        simp only [hpf] at hOk
        generalize w.execute _ _ = x at hOk
        cases x <;> simp at hOk
    · simp [httpRespond, hm, hg] at hOk

/-! ## The claims -/

/-- C1, the auth gate: a POST whose `Authorization` value differs from
`AUTH_KEY` is answered by the single call `http.Error(w, "unauthorized", 401)`,
whatever its other headers, form and files; the handler makes no other call, in
particular no `Put` and no multipart parsing. -/
theorem auth_gate (w : World) (r : Request) (hPost : r.Method = "POST")
    (hKey : HeaderGet r.Header "Authorization" ≠ w.AUTH_KEY) :
    httpRespond w r = ⟨[Event.httpError "unauthorized" 401], false⟩ ∧
      putCalls (httpRespond w r).trace = [] := by
  have h : httpRespond w r = ⟨[Event.httpError "unauthorized" 401], false⟩ := by
    simp [httpRespond, hPost, hKey]
  exact ⟨h, by rw [h]; rfl⟩

theorem auth_gate_witness :
    wrongKeyRequest.Method = "POST" ∧
      HeaderGet wrongKeyRequest.Header "Authorization" ≠ okWorld.AUTH_KEY ∧
      (httpRespond okWorld wrongKeyRequest = ⟨[Event.httpError "unauthorized" 401], false⟩ ∧
        putCalls (httpRespond okWorld wrongKeyRequest).trace = []) :=
  ⟨by decide, by decide, auth_gate okWorld wrongKeyRequest (by decide) (by decide)⟩

/-- C2, refuted as stated: with `AUTH_KEY` unset, a multipart POST that carries
no `Authorization` header passes the check, is stored by one `Put` and is answered
`OK`. -/
theorem missing_header_unset_key_accepted :
    noAuthRequest.Method = "POST" ∧
      noAuthRequest.Header.lookup "Authorization" = none ∧
      unsetKeyWorld.AUTH_KEY = "" ∧
      httpRespond unsetKeyWorld noAuthRequest =
        ⟨[Event.parseMultipartForm 33554432, Event.decode, Event.formFile "image",
          Event.put "1700000000.png" ⟨1⟩ 4, Event.write "OK", Event.close ⟨1⟩], false⟩ := by
  decide

/-- C2, amended: a POST that carries no `Authorization` header is answered by
the single call `http.Error(w, "unauthorized", 401)`, with no `Put`, for every
non-empty value of `AUTH_KEY`. -/
theorem missing_header_rejected (w : World) (r : Request) (hPost : r.Method = "POST")
    (hNone : r.Header.lookup "Authorization" = none) (hKey : w.AUTH_KEY ≠ "") :
    httpRespond w r = ⟨[Event.httpError "unauthorized" 401], false⟩ ∧
      putCalls (httpRespond w r).trace = [] := by
  have hGet : HeaderGet r.Header "Authorization" = "" := by
    simp [HeaderGet, hNone]
  have h : httpRespond w r = ⟨[Event.httpError "unauthorized" 401], false⟩ := by
    simp [httpRespond, hPost, hGet, Ne.symm hKey]
  exact ⟨h, by rw [h]; rfl⟩

theorem missing_header_rejected_witness :
    noAuthRequest.Method = "POST" ∧
      noAuthRequest.Header.lookup "Authorization" = none ∧
      okWorld.AUTH_KEY ≠ "" ∧
      (httpRespond okWorld noAuthRequest = ⟨[Event.httpError "unauthorized" 401], false⟩ ∧
        putCalls (httpRespond okWorld noAuthRequest).trace = []) :=
  ⟨by decide, by decide, by decide,
    missing_header_rejected okWorld noAuthRequest (by decide) (by decide) (by decide)⟩

/-- C3, the method guard on the code: for a method other than GET, `getImage`
answers `http.Error(w, "method not supported", 405)` and calls nothing else; for
a method other than GET and POST, `httpRespond` returns without any call at all,
so it writes no 405 (the server then sends an empty 200 reply). -/
theorem method_guard (w : World) (r : Request) (hGet : r.Method ≠ "GET") :
    getImage w r = ⟨[Event.httpError "method not supported" 405], false⟩ ∧
      (r.Method ≠ "POST" → httpRespond w r = ⟨[], false⟩) := by
  constructor
  · simp [getImage, hGet]
  · intro hPost
    simp [httpRespond, hGet, hPost]

theorem method_guard_witness :
    putRequest.Method ≠ "GET" ∧
      (getImage okWorld putRequest = ⟨[Event.httpError "method not supported" 405], false⟩ ∧
        (putRequest.Method ≠ "POST" → httpRespond okWorld putRequest = ⟨[], false⟩)) :=
  ⟨by decide, method_guard okWorld putRequest (by decide)⟩

/-- C4, refuted as stated: an upload with `filetype=a/b` succeeds and stores
under the key `1700000000.a/b`, and an upload one second before the epoch stores
under `-1.png`; neither key matches the pattern `^[0-9]+\.[^/]*$`. -/
theorem key_pattern_fails :
    (Event.write "OK" ∈ (httpRespond slashWorld uploadRequest).trace ∧
      putCalls (httpRespond slashWorld uploadRequest).trace = [("1700000000.a/b", ⟨1⟩, 4)] ∧
      matchesKeyPattern "1700000000.a/b" = false) ∧
    (Event.write "OK" ∈ (httpRespond earlyWorld uploadRequest).trace ∧
      putCalls (httpRespond earlyWorld uploadRequest).trace = [("-1.png", ⟨1⟩, 4)] ∧
      matchesKeyPattern "-1.png" = false) := by
  decide

/-- C4, amended: an upload answered `OK` made exactly one `Put`; its key is the
decimal rendering of the clock value, a dot, and the decoded filetype; the key
ends with that filetype; and it matches `^[0-9]+\.[^/]*$` exactly when the clock
value is not negative and the filetype holds no slash. -/
theorem key_format (w : World) (r : Request)
    (hOk : Event.write "OK" ∈ (httpRespond w r).trace) :
    ∃ data file size, w.decode = Except.ok data ∧
      putCalls (httpRespond w r).trace =
        [(FormatInt w.now ++ "." ++ data.Filetype, file, size)] ∧
      HasSuffix (FormatInt w.now ++ "." ++ data.Filetype) data.Filetype = true ∧
      (matchesKeyPattern (FormatInt w.now ++ "." ++ data.Filetype) = true ↔
        0 ≤ w.now ∧ '/' ∉ data.Filetype.data) := by
  obtain ⟨data, file, fileHeader, hd, h⟩ := httpRespond_ok_inv w r hOk
  refine ⟨data, file, fileHeader.Size, hd, ?_, hasSuffix_append _ _, matchesKeyPattern_key _ _⟩
  rw [h]
  rfl

theorem key_format_witness :
    Event.write "OK" ∈ (httpRespond okWorld uploadRequest).trace ∧
      ∃ data file size, okWorld.decode = Except.ok data ∧
        putCalls (httpRespond okWorld uploadRequest).trace =
          [(FormatInt okWorld.now ++ "." ++ data.Filetype, file, size)] ∧
        HasSuffix (FormatInt okWorld.now ++ "." ++ data.Filetype) data.Filetype = true ∧
        (matchesKeyPattern (FormatInt okWorld.now ++ "." ++ data.Filetype) = true ↔
          0 ≤ okWorld.now ∧ '/' ∉ data.Filetype.data) :=
  ⟨by decide, key_format okWorld uploadRequest (by decide)⟩

/-- C5, refuted as stated: for `GET /image?image=` the parameter is present with
the empty string as its value, and the handler calls `Item("")` and streams the
object instead of answering 400. -/
theorem empty_image_id_looked_up :
    emptyImageRequest.Method = "GET" ∧
      emptyImageRequest.Query.lookup "image" = some [""] ∧
      getImage okWorld emptyImageRequest =
        ⟨[Event.item "", Event.openItem ⟨7⟩, Event.copy (some ⟨9⟩)], false⟩ := by
  decide

/-- C5, amended: a GET on `getImage` whose query has no parameter `image` (or
an empty list of values for it) is answered by the single call
`http.Error(w, "missing image id", 400)` with no `Item` call; when the parameter
is present, also with the empty string as its value, the first call of the
handler is `Item` on that value. -/
theorem missing_image_id (w : World) (r : Request) (hGet : r.Method = "GET") :
    ((r.Query.lookup "image" = none ∨ r.Query.lookup "image" = some []) →
        getImage w r = ⟨[Event.httpError "missing image id" 400], false⟩) ∧
      (∀ v vs, r.Query.lookup "image" = some (v :: vs) →
        (getImage w r).trace.head? = some (Event.item v)) := by
  constructor
  · intro h
    rcases h with h | h <;> simp [getImage, hGet, h]
  · intro v vs h
    simp only [getImage, hGet, if_true, h]
    cases w.item v with
    | error err => rfl
    | ok item =>
      dsimp only
      split <;> rfl

theorem missing_image_id_witness :
    noImageRequest.Method = "GET" ∧
      (((noImageRequest.Query.lookup "image" = none ∨
          noImageRequest.Query.lookup "image" = some []) →
          getImage okWorld noImageRequest =
            ⟨[Event.httpError "missing image id" 400], false⟩) ∧
        (∀ v vs, noImageRequest.Query.lookup "image" = some (v :: vs) →
          (getImage okWorld noImageRequest).trace.head? = some (Event.item v))) :=
  ⟨by decide, missing_image_id okWorld noImageRequest (by decide)⟩

/-- C6 on the code: the error returned by `Items` is never read. Replacing it
by any other error value leaves the handler's run unchanged; and when `Items`
fails with `boom` while the template loads, the handler executes the template on
the results of the failed call and makes no `http.Error` call. -/
theorem items_error_ignored (w : World) (r : Request) (e : Option String) :
    httpRespond { w with items := fun p c n => { w.items p c n with err := e } } r =
        httpRespond w r ∧
      (itemsFailWorld.items NoPrefix CursorStart 100).err = some "boom" ∧
      httpRespond itemsFailWorld listRequest =
        ⟨[Event.items NoPrefix CursorStart 100, Event.parseFiles "index.tmpl",
          Event.execute [] ""], false⟩ := by
  refine ⟨rfl, by decide, by decide⟩

/-- C7 on the code: an authorized multipart POST whose form parses and decodes
but holds no file `image` (so `FormFile` returns a nil file) panics at
`defer file.Close()`, before the nil check; the handler makes no `http.Error`
call, so no 400 `no image` reply, and no `Put`. -/
theorem missing_file_panics (w : World) (r : Request) (data : reqBody)
    (hPost : r.Method = "POST")
    (hKey : HeaderGet r.Header "Authorization" = w.AUTH_KEY)
    (hType : Contains (HeaderGet r.Header "Content-Type") "multipart/form-data" = true)
    (hParse : w.parseMultipartForm = none)
    (hDecode : w.decode = Except.ok data)
    (hFile : (w.formFile "image").file = none) :
    httpRespond w r =
      ⟨[Event.parseMultipartForm (32 <<< 20), Event.decode, Event.formFile "image"], true⟩ ∧
      Event.httpError "no image" 400 ∉ (httpRespond w r).trace ∧
      putCalls (httpRespond w r).trace = [] := by
  have h : httpRespond w r =
      ⟨[Event.parseMultipartForm (32 <<< 20), Event.decode, Event.formFile "image"], true⟩ := by
    simp [httpRespond, hPost, hKey, hType, hParse, hDecode, hFile]
  refine ⟨h, ?_, ?_⟩
  · rw [h]; simp
  · rw [h]; rfl

theorem missing_file_panics_witness :
    httpRespond missingFileWorld uploadRequest =
      ⟨[Event.parseMultipartForm (32 <<< 20), Event.decode, Event.formFile "image"], true⟩ ∧
      Event.httpError "no image" 400 ∉ (httpRespond missingFileWorld uploadRequest).trace ∧
      putCalls (httpRespond missingFileWorld uploadRequest).trace = [] :=
  missing_file_panics missingFileWorld uploadRequest ⟨"png"⟩ (by decide) (by decide)
    (by decide) (by decide) rfl (by decide)

/-- C8: a GET on the list branch makes exactly one `Items` call, with the
no-filter sentinel, the limit 100, and a cursor that is the start sentinel when
the parameter `cursor` is absent, has no value, or has the empty string as its
value, and is otherwise the client's first value unchanged; so a request without
a cursor and a request whose cursor is the start sentinel make the same call. -/
theorem list_cursor (w : World) (r r' : Request)
    (hGet : r.Method = "GET") (hGet' : r'.Method = "GET") :
    (∃ cursor, itemsCalls (httpRespond w r).trace = [(NoPrefix, cursor, 100)] ∧
      ((r.Query.lookup "cursor" = none ∨ r.Query.lookup "cursor" = some [] ∨
          ∃ vs, r.Query.lookup "cursor" = some ("" :: vs)) → cursor = CursorStart) ∧
      (∀ c vs, r.Query.lookup "cursor" = some (c :: vs) → cursor = c)) ∧
    (r.Query.lookup "cursor" = none → r'.Query.lookup "cursor" = some [CursorStart] →
      itemsCalls (httpRespond w r).trace = itemsCalls (httpRespond w r').trace) := by
  constructor
  · refine ⟨_, httpRespond_get_itemsCalls w r hGet, ?_, ?_⟩
    · intro h
      rcases h with h | h | ⟨vs, h⟩ <;> simp [h, CursorStart]
    · intro c vs h
      simp [h]
  · intro h h'
    rw [httpRespond_get_itemsCalls w r hGet, httpRespond_get_itemsCalls w r' hGet']
    simp [h, h']

theorem list_cursor_witness :
    (∃ cursor, itemsCalls (httpRespond okWorld listRequest).trace = [(NoPrefix, cursor, 100)] ∧
      ((listRequest.Query.lookup "cursor" = none ∨ listRequest.Query.lookup "cursor" = some [] ∨
          ∃ vs, listRequest.Query.lookup "cursor" = some ("" :: vs)) → cursor = CursorStart) ∧
      (∀ c vs, listRequest.Query.lookup "cursor" = some (c :: vs) → cursor = c)) ∧
    (listRequest.Query.lookup "cursor" = none →
      listStartRequest.Query.lookup "cursor" = some [CursorStart] →
      itemsCalls (httpRespond okWorld listRequest).trace =
        itemsCalls (httpRespond okWorld listStartRequest).trace) :=
  list_cursor okWorld listRequest listStartRequest (by decide) (by decide)

/-- C9, refuted as stated: the path `/foo` is dispatched to `httpRespond`, not
answered 404. -/
theorem foo_reaches_httpRespond : dispatch "/foo" = some Handler.httpRespond := by
  decide

/-- C9, amended: the route `/image` is an exact-path match, the route `/` is a
subtree pattern. A path is dispatched to `getImage` exactly when it is `/image`,
to `httpRespond` exactly when it begins with a slash and is not `/image` (so
`/foo` reaches `httpRespond`), and to the 404 handler exactly when it does not
begin with a slash. -/
theorem routing (path : String) :
    (dispatch path = some Handler.getImage ↔ path = "/image") ∧
      (dispatch path = some Handler.httpRespond ↔
        (HasPrefix path "/" = true ∧ path ≠ "/image")) ∧
      (dispatch path = none ↔ HasPrefix path "/" = false) := by
  unfold dispatch
  rw [mainMux_eq]
  by_cases h1 : path = "/image"
  · subst h1
    decide
  · have h1' : ¬ "/image" = path := fun h => h1 h.symm
    by_cases h2 : path = "/"
    · subst h2
      decide
    · have h2' : ¬ "/" = path := fun h => h2 h.symm
      have b1 : ("/image" == path) = false := beq_eq_false_iff_ne.mpr h1'
      have b2 : ("/" == path) = false := beq_eq_false_iff_ne.mpr h2'
      cases hp : HasPrefix path "/" <;>
        simp [ServeMux.matchPath, List.find?, h1, b1, b2, hp]

/-- C10 on the code: when `Item` succeeds and `Open` fails, `getImage` calls
`http.Error` with status 500 and then, for want of a `return`, still calls
`io.Copy` on the reader that `Open` returned; with a nil reader the handler
panics. -/
theorem open_error_falls_through (w : World) (r : Request) (imageID : String)
    (vs : List String) (item : Item) (msg : String)
    (hGet : r.Method = "GET")
    (hQuery : r.Query.lookup "image" = some (imageID :: vs))
    (hItem : w.item imageID = Except.ok item)
    (hOpen : (w.openItem item).err = some msg) :
    getImage w r =
      ⟨[Event.item imageID, Event.openItem item, Event.httpError msg 500,
        Event.copy (w.openItem item).reader], (w.openItem item).reader.isNone⟩ := by
  simp [getImage, hGet, hQuery, hItem, hOpen]

theorem open_error_falls_through_witness :
    getImage openFailWorld imageRequest =
      ⟨[Event.item "k", Event.openItem ⟨7⟩, Event.httpError "open failed" 500,
        Event.copy none], true⟩ :=
  open_error_falls_through openFailWorld imageRequest "k" [] ⟨7⟩ "open failed"
    (by decide) (by decide) rfl (by decide)

end ImagesStore
